import Mathlib

/-!
Shallow embedding of the resilient-operation engine of terraform-provider-bugx
(http_client.go, provider.go, resource_cluster.go, the helm-release and secret
resources, resource_orphan_cleanup.go), together with theorems settling the
frozen claims about it.

Modelling conventions:
* Durations are natural numbers of nanoseconds (`time.Duration` is an int64
  nanosecond count).  The backoff multiplier is stored as a `float64` in Go but
  every configuration the program constructs uses the integer value 2.0, for
  which the multiplication `time.Duration(float64(delay) * multiplier)` is
  exact integer arithmetic; we therefore model it as a `Nat`.
* HTTP traffic is abstracted by an environment: a function from attempt index
  to the result of that attempt, or explicit parameters holding the result of
  each call a handler performs.  The model emits a trace of observable events
  (requests issued, response bodies drained, sleeps).
* Strings are Lean `String`s (sequences of characters); Go indexes bytes, but
  every string constant involved is ASCII, where the two views agree.
-/

namespace BugxProvider

/-- One second in nanoseconds (Go `time.Second`). -/
def second : Nat := 1000000000

/-- RetryConfig holds retry configuration (http_client.go:17-22).
`BackoffMultiplier` is `float64` in Go; see the module comment. -/
structure RetryConfig where
  MaxRetries : Nat
  InitialDelay : Nat
  MaxDelay : Nat
  BackoffMultiplier : Nat
deriving Repr, DecidableEq

/-- DefaultRetryConfig (http_client.go:25-32): 3 retries, 1s initial delay,
30s max delay, multiplier 2.0. -/
def DefaultRetryConfig : RetryConfig :=
  { MaxRetries := 3
    InitialDelay := second
    MaxDelay := 30 * second
    BackoffMultiplier := 2 }

/-- Result of waiting at a suspension point. -/
inductive WaitResult where
  | completed
  | interrupted
deriving Repr, DecidableEq

/-- The backoff wait in doRequestWithRetry (http_client.go:78-82): a `select`
on `ctx.Done()` and `time.After(delay)`; cancellation interrupts the wait. -/
def retryBackoffWait (cancelled : Bool) : WaitResult :=
  if cancelled then .interrupted else .completed

/-- The poll-interval wait in resourceClusterCreate (resource_cluster.go:203-207):
a `select` on `ctx.Done()` and `time.After(pollInterval)`; cancellation
interrupts the wait. -/
def pollIntervalWait (cancelled : Bool) : WaitResult :=
  if cancelled then .interrupted else .completed

/-- The grace wait before an ambiguous-delete verification read
(resource_cluster.go:336 and 376, and the same pattern in resourceSecretDelete):
a plain `time.Sleep(2 * time.Second)` that does not observe the context, so it
always completes regardless of cancellation. -/
def deleteGraceWait (_cancelled : Bool) : WaitResult := .completed

/-- Substring containment on character lists (Go `strings.Contains`). -/
def containsSub (pat : List Char) : List Char → Bool
  | [] => pat.isEmpty
  | c :: rest => pat.isPrefixOf (c :: rest) || containsSub pat rest

/-- Lower-casing a string character-wise (Go `strings.ToLower` on ASCII). -/
def strToLower (s : String) : String := ⟨s.data.map Char.toLower⟩

/-- The fixed retryable transport-error category list (http_client.go:42-50). -/
def retryableErrors : List String :=
  ["EOF", "connection reset", "connection refused", "timeout",
   "temporary failure", "no such host", "network is unreachable"]

/-- isRetryableError (http_client.go:35-59): case-insensitive substring match
of the error message against the retryable category list.  The `err == nil`
guard is represented by only calling this on actual error messages. -/
def isRetryableError (msg : String) : Bool :=
  retryableErrors.any fun r => containsSub (strToLower r).data (strToLower msg).data

/-- isRetryableStatusCode (http_client.go:62-65): 5xx or 429. -/
def isRetryableStatusCode (status : Nat) : Bool :=
  (500 ≤ status && status < 600) || status == 429

/-- One backoff-delay update (http_client.go:85-88): scale by the multiplier,
cap at the max delay. -/
def nextDelay (cfg : RetryConfig) (d : Nat) : Nat :=
  min (d * cfg.BackoffMultiplier) cfg.MaxDelay

/-- The value of the `delay` variable of doRequestWithRetry when the n-th retry
(0-indexed here: `backoffDelay cfg 0` is slept before retry 1) begins its wait:
it starts at `InitialDelay` (http_client.go:70) and is updated by `nextDelay`
after each wait (http_client.go:85-88). -/
def backoffDelay (cfg : RetryConfig) : Nat → Nat
  | 0 => cfg.InitialDelay
  | n + 1 => nextDelay cfg (backoffDelay cfg n)

/-- The outcome of one HTTP attempt as seen by doRequestWithRetry: either
`client.HTTPClient.Do` returned an error, or it returned a response with a
status code. -/
inductive AttemptResult where
  | transportErr (msg : String)
  | response (status : Nat)
deriving Repr, DecidableEq

/-- Whether an attempt outcome is classified retryable by the executor. -/
def retryableOutcome : AttemptResult → Bool
  | .transportErr m => isRetryableError m
  | .response s => isRetryableStatusCode s

/-- Observable events of a doRequestWithRetry run: issuing the HTTP request of
an attempt, draining+closing a discarded response body (http_client.go:138-139),
and sleeping a backoff delay before an attempt. -/
inductive HttpEvent where
  | request (attempt : Nat)
  | drainClose (attempt : Nat)
  | sleep (attempt : Nat) (delay : Nat)
deriving Repr, DecidableEq

/-- Terminal outcome of doRequestWithRetry (http_client.go:68-149). -/
inductive RetryOutcome where
  | response (status : Nat)
  | transportError (msg : String)
  | cancelled
  | maxRetriesExceeded (lastErr : Option String)
deriving Repr, DecidableEq

/-- Whether an executor outcome is an error value (`nil, err` in Go) as opposed
to a returned response. -/
def isErrorOutcome : RetryOutcome → Bool
  | .response _ => false
  | _ => true

/-- The loop of doRequestWithRetry (http_client.go:72-146), driven by a fuel
counter equal to the number of remaining loop iterations.  `attempts i` is the
result of the HTTP call of attempt `i`; `cancel i` tells whether the context is
cancelled during the backoff wait before attempt `i`.  The per-attempt request
rebuild (http_client.go:92-121) has no observable effect here and is summarised
by the `.request` event. -/
def retryAux (cfg : RetryConfig) (attempts : Nat → AttemptResult) (cancel : Nat → Bool) :
    Nat → Nat → Nat → Option String → RetryOutcome × List HttpEvent
  | 0, _, _, lastErr => (.maxRetriesExceeded lastErr, [])
  | fuel + 1, attempt, delay, _lastErr =>
    match (if attempt = 0 then WaitResult.completed else retryBackoffWait (cancel attempt)) with
    | .interrupted => (.cancelled, [])
    | .completed =>
      let pre : List HttpEvent := if attempt = 0 then [] else [.sleep attempt delay]
      let delay2 := if attempt = 0 then delay else nextDelay cfg delay
      match attempts attempt with
      | .transportErr msg =>
        if isRetryableError msg && decide (attempt < cfg.MaxRetries) then
          let r := retryAux cfg attempts cancel fuel (attempt + 1) delay2 (some msg)
          (r.1, pre ++ .request attempt :: r.2)
        else
          (.transportError msg, pre ++ [.request attempt])
      | .response status =>
        if isRetryableStatusCode status && decide (attempt < cfg.MaxRetries) then
          let r := retryAux cfg attempts cancel fuel (attempt + 1) delay2
              (some ("received retryable status code: " ++ toString status))
          (r.1, pre ++ .request attempt :: .drainClose attempt :: r.2)
        else
          (.response status, pre ++ [.request attempt])

/-- doRequestWithRetry (http_client.go:68-149): up to `MaxRetries + 1` loop
iterations starting at attempt 0 with the initial delay. -/
def doRequestWithRetry (cfg : RetryConfig) (attempts : Nat → AttemptResult)
    (cancel : Nat → Bool) : RetryOutcome × List HttpEvent :=
  retryAux cfg attempts cancel (cfg.MaxRetries + 1) 0 cfg.InitialDelay none

/-- A run with no cancellation. -/
def noCancelF : Nat → Bool := fun _ => false

/-- Whether an event is the issuing of an HTTP request. -/
def isReqEvent : HttpEvent → Bool
  | .request _ => true
  | _ => false

/-- Number of HTTP requests issued in a trace. -/
def countRequests (l : List HttpEvent) : Nat := l.countP isReqEvent

/-- The backoff sleeps of a trace, as (attempt index, delay slept) pairs. -/
def sleepEvents (l : List HttpEvent) : List (Nat × Nat) :=
  l.filterMap fun e => match e with | .sleep a d => some (a, d) | _ => none

/-- What the executor returns when its final attempt is still retryable:
a transport error is propagated as the error (http_client.go:132), a retryable
status response falls through to `return resp, nil` (http_client.go:145). -/
def finalRetryOutcome : AttemptResult → RetryOutcome
  | .transportErr m => .transportError m
  | .response s => .response s

/-! Authorization-header construction.  Several call sites share the pattern
`if authHeader != "" && len(authHeader) > 7 && authHeader[:7] != "Bearer " {
authHeader = "Bearer " + authHeader }`; cluster create/delete and the
kubeconfig fetch instead send `client.Token` raw. -/

/-- The shared Bearer-normalization pattern (resource_cluster.go:402-405 and
439-442, the helm-release file lines 139-142 and 252-255, resource_orphan_cleanup.go:189-192,
and every secret CRUD handler).  Go compares the first 7 bytes; all the strings
involved are ASCII, where bytes and characters agree. -/
def bearerNormalize (token : String) : String :=
  if token ≠ "" ∧ 7 < token.data.length ∧ token.data.take 7 ≠ "Bearer ".data then
    "Bearer " ++ token
  else token

/-- The outbound API calls of the provider (excluding /login, which carries no
Authorization header). -/
inductive ApiCall where
  | clusterCreate
  | clusterDelete
  | kubeconfigFetch
  | clusterInfoGet
  | clusterListGet
  | helmInstall
  | helmDelete
  | orphanAppDelete
  | secretCreate
  | secretReadById
  | secretList
  | secretUpdate
  | secretDelete
deriving Repr, DecidableEq

/-- Which calls run the token through `bearerNormalize`; cluster create/delete
and the kubeconfig fetch send the raw token. -/
def usesBearerNorm : ApiCall → Bool
  | .clusterCreate => false
  | .clusterDelete => false
  | .kubeconfigFetch => false
  | _ => true

/-- The Authorization header each call sends for a stored token, `none` when
the header is not set at all.
* clusterCreate (resource_cluster.go:122): always sets the raw token.
* clusterDelete (resource_cluster.go:325-327) and kubeconfigFetch
  (resource_cluster.go:480-482): raw token, only when non-empty.
* helmInstall, helmDelete, orphanAppDelete: normalized token, set
  unconditionally.
* clusterInfoGet, clusterListGet and the secret CRUD handlers: normalized
  token, only when non-empty. -/
def authHeaderFor (c : ApiCall) (token : String) : Option String :=
  match c with
  | .clusterCreate => some token
  | .clusterDelete => if token = "" then none else some token
  | .kubeconfigFetch => if token = "" then none else some token
  | .helmInstall => some (bearerNormalize token)
  | .helmDelete => some (bearerNormalize token)
  | .orphanAppDelete => some (bearerNormalize token)
  | _ =>
    if bearerNormalize token = "" then none else some (bearerNormalize token)

/-! Cluster resource (resource_cluster.go). -/

/-- ClusterInfo (resource_cluster.go:38-47): the JSON structure returned from
/clusters. -/
structure ClusterInfo where
  Name : String
  ClusterID : String
  Status : String
  Version : String
  HealthCheck : String
  Alert : String
  EndPoint : String
  NameSpace : String
deriving Repr, DecidableEq

/-- Outcome of a read query such as fetchClusterInfo (resource_cluster.go:430-469):
an error, an explicit not-found (404 or empty list returns `nil, nil`), or the
first matching element. -/
inductive FetchResult (α : Type) where
  | fetchErr (msg : String)
  | notFound
  | found (val : α)
deriving Repr, DecidableEq

/-- Generic diag outcome of a handler: success (`nil`) or an error. -/
inductive OpResult where
  | ok
  | err (msg : String)
deriving Repr, DecidableEq

/-- Result of a delete request routed through the retry executor as seen by a
handler: either the executor returned diagnostics (`diags.HasError()`), or a
response with a status code and body. -/
inductive CallResult where
  | execErr (msg : String)
  | resp (status : Nat) (body : String)
deriving Repr, DecidableEq

/-- Whether a poll read observed the terminal-success marker
(resource_cluster.go:168: `info.Status == "Healthy"`). -/
def isHealthy : FetchResult ClusterInfo → Bool
  | .found info => decide (info.Status = "Healthy")
  | _ => false

/-- Terminal outcome of the create-convergence poll loop. -/
inductive PollOutcome where
  | converged (info : ClusterInfo)
  | cancelled
  | timedOut (lastStatus : String)
deriving Repr, DecidableEq

/-- Whether a poll outcome is the Converged transition. -/
def PollOutcome.isConverged : PollOutcome → Bool
  | .converged _ => true
  | _ => false

/-- Trace of a poll run: how many fetchClusterInfo reads the loop issued, how
many interval sleeps completed, and the terminal outcome. -/
structure PollTrace where
  reads : Nat
  sleeps : Nat
  outcome : PollOutcome
deriving Repr, DecidableEq

/-- The tail of one poll iteration (resource_cluster.go:202-208): sleep the
poll interval unless this is the final attempt, observing cancellation, then
continue with the rest of the loop; the current iteration contributes one
read. -/
def pollSleepThen (cancel : Nat → Bool) (maxAttempts i : Nat)
    (rest : Unit → PollTrace) : PollTrace :=
  if i < maxAttempts - 1 then
    match pollIntervalWait (cancel i) with
    | .interrupted => ⟨1, 0, .cancelled⟩
    | .completed =>
      let t := rest ()
      ⟨t.reads + 1, t.sleeps + 1, t.outcome⟩
  else
    let t := rest ()
    ⟨t.reads + 1, t.sleeps, t.outcome⟩

/-- The convergence poll loop of resourceClusterCreate
(resource_cluster.go:151-211), driven by fuel = remaining iterations.
`fetch i` is the result of the fetchClusterInfo call of iteration `i` (a fetch
error is logged and treated as a missed observation, not a failure).  On a
Healthy observation the loop performs its best-effort secondary fetches
(kubeconfig, namespace), sets the resource ID and returns — issuing no further
poll read and no further interval sleep.  The threaded `last` string is the
`lastStatus` variable. -/
def pollAux (fetch : Nat → FetchResult ClusterInfo) (cancel : Nat → Bool)
    (maxAttempts : Nat) : Nat → Nat → String → PollTrace
  | _, 0, last => ⟨0, 0, .timedOut last⟩
  | i, fuel + 1, last =>
    match fetch i with
    | .found info =>
      if info.Status = "Healthy" then ⟨1, 0, .converged info⟩
      else
        pollSleepThen cancel maxAttempts i
          fun _ => pollAux fetch cancel maxAttempts (i + 1) fuel info.Status
    | _ =>
      pollSleepThen cancel maxAttempts i
        fun _ => pollAux fetch cancel maxAttempts (i + 1) fuel last

/-- The poll loop as entered by resourceClusterCreate: maxAttempts = 60
(resource_cluster.go:146-149), starting at iteration 0 with empty last status.
On exhaustion the handler reports `cluster did not become Healthy within the
timeout; last known status: <lastStatus>` (resource_cluster.go:211). -/
def clusterCreatePoll (fetch : Nat → FetchResult ClusterInfo)
    (cancel : Nat → Bool) : PollTrace :=
  pollAux fetch cancel 60 0 60 ""

/-- The value of the `lastStatus` variable after scanning iterations
`i, i+1, ...` for `fuel` steps: updated exactly on reads that return a
cluster (resource_cluster.go:157). -/
def lastStatusAux (fetch : Nat → FetchResult ClusterInfo) :
    Nat → Nat → String → String
  | _, 0, last => last
  | i, fuel + 1, last =>
    match fetch i with
    | .found info => lastStatusAux fetch (i + 1) fuel info.Status
    | _ => lastStatusAux fetch (i + 1) fuel last

/-- The status of the most recent successful read among the first `n` poll
attempts, or the empty string when none succeeded. -/
def lastObservedStatus (fetch : Nat → FetchResult ClusterInfo) (n : Nat) : String :=
  lastStatusAux fetch 0 n ""

/-- Observable outcome of resourceClusterDelete: the diag result, whether
`d.SetId("")` cleared the local handle, whether the 2-second grace sleep ran,
and the namespace the delete URL carried. -/
structure ClusterDeleteOutcome where
  result : OpResult
  idCleared : Bool
  graceSlept : Bool
  namespaceUsed : String
deriving Repr, DecidableEq

/-- resourceClusterDelete (resource_cluster.go:284-390).  `nsLookup` is the
fetchClusterInfo call used to recover a missing namespace (lines 299-307);
`deleteCall` the outcome of the DELETE routed through the retry executor;
`verifyRead` the fetchClusterInfo verification read used by whichever
ambiguous-failure branch runs.  `_cancelDuringGrace` is ignored exactly as the
unconditional `time.Sleep(2 * time.Second)` ignores the context. -/
def resourceClusterDelete (name stateNamespace : String)
    (nsLookup : FetchResult ClusterInfo) (deleteCall : CallResult)
    (verifyRead : FetchResult ClusterInfo)
    (_cancelDuringGrace : Bool) : ClusterDeleteOutcome :=
  if name = "" then ⟨.ok, true, false, stateNamespace⟩
  else
    let ns :=
      if stateNamespace = "" then
        match nsLookup with
        | .found info => info.NameSpace
        | _ => ""
      else stateNamespace
    match deleteCall with
    | .execErr e =>
      -- lines 330-353: grace sleep, then verify; `info == nil` also covers a
      -- failed verification read, which is then treated as absence.
      match verifyRead with
      | .found _ => ⟨.err e, false, true, ns⟩
      | _ => ⟨.ok, true, true, ns⟩
    | .resp status body =>
      if status = 404 then ⟨.ok, true, false, ns⟩
      else if status < 200 ∨ 300 ≤ status then
        -- lines 369-385: grace sleep, verify; success only on a read that
        -- positively reports absence (`checkErr == nil && info == nil`).
        match verifyRead with
        | .notFound => ⟨.ok, true, true, ns⟩
        | _ =>
          ⟨.err ("deletecluster failed: " ++ toString status ++ ": " ++
              (if body = "" then "(no response body)" else body)),
            false, true, ns⟩
      else ⟨.ok, true, false, ns⟩

/-! Secret resource (resourceSecret* handlers). -/

/-- SecretInfo: the JSON structure returned from the secrets API.  The `Data`
map field is omitted: the delete path modelled here never inspects it. -/
structure SecretInfo where
  ID : String
  Name : String
  Description : String
  CreatedAt : String
  UpdatedAt : String
deriving Repr, DecidableEq

/-- Observable outcome of resourceSecretDelete. -/
structure SecretDeleteOutcome where
  result : OpResult
  idCleared : Bool
  graceSlept : Bool
  resolvedId : String
deriving Repr, DecidableEq

/-- resourceSecretDelete: resolve the ID (name-based list lookup when the
stored ID is missing or equals the name), DELETE /secrets/api/v1/secrets/:id
through the retry executor, then the same ambiguous-failure handling as the
cluster delete: on an executor error, sleep 2s and read the secret back —
`secret == nil` (which also covers a failed verification read) clears the
handle and reports success; on a non-2xx/404 status, sleep 2s and succeed only
when the read positively reports absence. -/
def resourceSecretDelete (stateId name : String)
    (nameLookup : FetchResult SecretInfo) (deleteCall : CallResult)
    (verifyRead : FetchResult SecretInfo) : SecretDeleteOutcome :=
  let resourceID :=
    if stateId = "" ∨ stateId = name then
      if name ≠ "" then
        match nameLookup with
        | .found s => if s.ID ≠ "" then s.ID else stateId
        | _ => stateId
      else stateId
    else stateId
  if resourceID = "" then ⟨.ok, true, false, resourceID⟩
  else
    match deleteCall with
    | .execErr e =>
      match verifyRead with
      | .found _ => ⟨.err e, false, true, resourceID⟩
      | _ => ⟨.ok, true, true, resourceID⟩
    | .resp status body =>
      if status = 404 then ⟨.ok, true, false, resourceID⟩
      else if status < 200 ∨ 300 ≤ status then
        match verifyRead with
        | .notFound => ⟨.ok, true, true, resourceID⟩
        | _ =>
          ⟨.err ("delete secret failed: " ++ toString status ++ ": " ++
              (if body = "" then "(no response body)" else body)),
            false, true, resourceID⟩
      else ⟨.ok, true, false, resourceID⟩

/-! Helm release resource. -/

/-- The loop body of splitResourceID: walk the characters, collecting the
current segment in reverse; a separator flushes a non-empty segment and drops
an empty one (`if i > lastIndex`), and a non-empty trailing segment is
appended at the end (`if lastIndex < len(id)`). -/
def splitAux : List Char → List Char → List (List Char)
  | [], cur => if cur.isEmpty then [] else [cur.reverse]
  | c :: rest, cur =>
    if c = ':' then
      if cur.isEmpty then splitAux rest []
      else cur.reverse :: splitAux rest []
    else splitAux rest (c :: cur)

/-- splitResourceID (helm-release file lines 290-306): split the composite ID
on the reserved separator, skipping empty segments. -/
def splitResourceID (id : String) : List String :=
  (splitAux id.data []).map fun l => ⟨l⟩

/-- The composite release identifier written by resourceHelmReleaseCreate
(line 175: `fmt.Sprintf("%s:%s:%s", Clustername, Namespace, Release)`). -/
def encodeHelmID (cluster ns release : String) : String :=
  cluster ++ ":" ++ ns ++ ":" ++ release

/-- Observable outcome of resourceHelmReleaseDelete: the app name used in the
DELETE /deleteapp call (`none` when no call was issued), the diag result, and
whether the handle was cleared. -/
structure HelmDeleteOutcome where
  appName : Option String
  result : OpResult
  idCleared : Bool
deriving Repr, DecidableEq

/-- resourceHelmReleaseDelete (helm-release file lines 206-287): a resource ID
that does not decode to exactly 3 parts clears the state and returns without a
network call; otherwise the app name is `{cluster namespace}-{release}` when
the cluster lookup succeeds with a non-empty namespace, and the bare release
name when the lookup fails, the cluster is absent, or its namespace is empty;
then the DELETE is issued (404 counts as already deleted). -/
def resourceHelmReleaseDelete (id : String)
    (clusterLookup : FetchResult ClusterInfo)
    (deleteCall : CallResult) : HelmDeleteOutcome :=
  match splitResourceID id with
  | [_clustername, _k8sNamespace, release] =>
    let appName :=
      match clusterLookup with
      | .fetchErr _ => release
      | .notFound => release
      | .found info =>
        if info.NameSpace = "" then release
        else info.NameSpace ++ "-" ++ release
    match deleteCall with
    | .execErr e => ⟨some appName, .err e, false⟩
    | .resp status body =>
      if status = 404 then ⟨some appName, .ok, true⟩
      else if status < 200 ∨ 300 ≤ status then
        ⟨some appName,
          .err ("deleteapp failed for " ++ release ++ ": " ++ toString status ++ ": " ++
            (if body = "" then "(no response body)" else body)),
          false⟩
      else ⟨some appName, .ok, true⟩
  | _ => ⟨none, .ok, true⟩

/-- Which schema fields `d.HasChange`/`d.HasChanges` reports as changed in a
helm-release update plan.  `nspace` stands for the `namespace` field. -/
structure HelmChanges where
  clusterName : Bool
  nspace : Bool
  release : Bool
  chart : Bool
  repo : Bool
  chartVersion : Bool
  values : Bool
  valuesFile : Bool
deriving Repr, DecidableEq

/-- The immutable-field check of resourceHelmReleaseUpdate (line 192):
`d.HasChanges("cluster_name", "namespace", "release", "chart", "repo",
"chart_version")`. -/
def helmImmutableChanged (c : HelmChanges) : Bool :=
  c.clusterName || c.nspace || c.release || c.chart || c.repo || c.chartVersion

/-- What resourceHelmReleaseUpdate does next. -/
inductive HelmUpdateStep where
  | rejectImmutable (msg : String)
  | reinstall
  | readOnly
deriving Repr, DecidableEq

/-- resourceHelmReleaseUpdate (helm-release file lines 190-203): reject any
immutable-field change before anything else; reinstall (re-invoking create,
which POSTs /helm_install) only when values or values_file changed; otherwise
fall through to the read stub. -/
def resourceHelmReleaseUpdate (c : HelmChanges) : HelmUpdateStep :=
  if helmImmutableChanged c then
    .rejectImmutable
      "cannot change cluster_name, namespace, release, chart, repo, or chart_version. These require recreation"
  else if c.values || c.valuesFile then .reinstall
  else .readOnly

/-- Network calls each update step issues: the reinstall path re-invokes
resourceHelmReleaseCreate, which POSTs /helm_install; the rejection returns
before any request is built, and the read path is a stub. -/
def helmUpdateNetworkCalls : HelmUpdateStep → Nat
  | .reinstall => 1
  | _ => 0

/-! Orphan-cleanup resource (resource_orphan_cleanup.go). -/

/-- Observable outcome of resourceOrphanCleanupCreate: the appNames it issued
DELETE /deleteapp calls for (in order), the resource ID it set, the value
stored in `deleted_apps`, and the diag result. -/
structure OrphanCleanupOutcome where
  deleteCalls : List String
  resId : Option String
  deletedApps : Option (List String)
  result : OpResult
deriving Repr, DecidableEq

/-- resourceOrphanCleanupCreate (resource_orphan_cleanup.go:54-151).
`clusterLookup` is the initial fetchClusterInfo; `appsToDelete` the explicit
`apps_to_delete` set; `deleteApp a` the outcome of deleteOrphanApp for app `a`.
The `keep_releases` block (lines 91-108) only builds a lookup map and logs —
it never adds to the deletion list, as the source itself notes (no list API).
With no apps to delete the handler sets the synthetic ID, stores an empty
`deleted_apps` and succeeds without issuing any delete. -/
def resourceOrphanCleanupCreate (clusterName : String)
    (clusterLookup : FetchResult ClusterInfo)
    (appsToDelete : List String) (_keepReleases : List String)
    (deleteApp : String → OpResult) : OrphanCleanupOutcome :=
  match clusterLookup with
  | .fetchErr m =>
    ⟨[], none, none, .err ("failed to fetch cluster info for " ++ clusterName ++ ": " ++ m)⟩
  | .notFound =>
    ⟨[], none, none, .err ("cluster " ++ clusterName ++ " not found")⟩
  | .found _info =>
    let apps := appsToDelete.filter fun a => a ≠ ""
    if apps.isEmpty then
      ⟨[], some (clusterName ++ "-orphan-cleanup"), some [], .ok⟩
    else
      let deleted := apps.filter fun a => deleteApp a = .ok
      ⟨apps, some (clusterName ++ "-orphan-cleanup"), some deleted,
        if apps.any fun a => deleteApp a ≠ .ok then
          .err "aggregated per-app delete failures"
        else .ok⟩

/-! Derived views of the retry model used in the statements below. -/

/-- The drained-body events attempt `a` contributes when its response is
discarded (http_client.go:138-139): one drain+close for a response, nothing
for a transport error. -/
def drainOf (attempts : Nat → AttemptResult) (a : Nat) : List HttpEvent :=
  match attempts a with
  | .response _ => [.drainClose a]
  | _ => []

/-- The `lastErr` value doRequestWithRetry records for a retryable attempt
(http_client.go:128 and 140). -/
def lastErrOf : AttemptResult → Option String
  | .transportErr m => some m
  | .response s => some ("received retryable status code: " ++ toString s)

/-! Concrete fixtures for the witnesses and counterexamples below. -/

/-- A cluster snapshot whose status is the terminal-success marker. -/
def healthyDemo : ClusterInfo :=
  ⟨"demo", "cid-1", "Healthy", "", "", "", "ep", "ns-1"⟩

/-- A cluster snapshot that never reaches the terminal-success marker. -/
def progressingDemo : ClusterInfo :=
  ⟨"demo", "cid-1", "Progressing", "", "", "", "ep", "ns-1"⟩

/-- A poll environment whose third read (index 2) observes Healthy. -/
def c5fetchA : Nat → FetchResult ClusterInfo :=
  fun i => if i = 2 then .found healthyDemo else .notFound

/-- A poll environment that always observes Progressing. -/
def c5fetchB : Nat → FetchResult ClusterInfo := fun _ => .found progressingDemo

/-- A retry policy with a single retry. -/
def c3cfg : RetryConfig := ⟨1, second, 30 * second, 2⟩

/-- An environment whose every attempt returns HTTP 500. -/
def c3attempts : Nat → AttemptResult := fun _ => .response 500

/-- An environment whose every attempt returns HTTP 503. -/
def c7attempts : Nat → AttemptResult := fun _ => .response 503

/-- A poll environment that never finds the cluster. -/
def c7fetch : Nat → FetchResult ClusterInfo := fun _ => .notFound

/-- A helm-release plan changing only the chart (an immutable field). -/
def c8changesChart : HelmChanges := ⟨false, false, false, true, false, false, false, false⟩

/-- A helm-release plan changing only the values (a mutable field). -/
def c8changesValues : HelmChanges := ⟨false, false, false, false, false, false, true, false⟩

/-- A cluster snapshot with a non-empty namespace, for the delete app-name
witness. -/
def c10info : ClusterInfo := ⟨"prod", "cid-2", "Healthy", "", "", "", "", "ns-x7"⟩


/-! Helper lemmas about the composite-identifier codec. -/

theorem splitAux_nocolon (l : List Char) (hl : ∀ ch ∈ l, ch ≠ ':') :
    ∀ rest cur, splitAux (l ++ rest) cur = splitAux rest (l.reverse ++ cur) := by
  induction l with
  | nil => intro rest cur; simp
  | cons c t ih =>
    intro rest cur
    have hc : c ≠ ':' := hl c (by simp)
    have ht : ∀ ch ∈ t, ch ≠ ':' := fun ch hch => hl ch (by simp [hch])
    simp only [List.cons_append, splitAux, if_neg hc, List.append_eq]
    rw [ih ht rest (c :: cur)]
    simp

theorem data_ne_nil {s : String} (h : s ≠ "") : s.data ≠ [] := by
  intro hd
  apply h
  cases s with
  | mk d => cases hd; rfl

theorem splitAux_colon_flush (rest cur : List Char) (h : cur ≠ []) :
    splitAux (':' :: rest) cur = cur.reverse :: splitAux rest [] := by
  cases cur with
  | nil => exact absurd rfl h
  | cons a t => simp [splitAux]

theorem splitAux_last (l : List Char) (hl : ∀ ch ∈ l, ch ≠ ':') (h : l ≠ []) :
    splitAux l [] = [l] := by
  have h2 := splitAux_nocolon l hl [] []
  rw [List.append_nil] at h2
  rw [h2]
  simp [splitAux, h]

/-! Helper lemmas about the Bearer normalization. -/

theorem bearerNormalize_long (token : String) (hne : token ≠ "")
    (h1 : 7 < token.data.length) (h2 : token.data.take 7 ≠ "Bearer ".data) :
    bearerNormalize token = "Bearer " ++ token := by
  unfold bearerNormalize
  rw [if_pos ⟨hne, h1, h2⟩]

theorem bearerNormalize_marked (token : String)
    (h : token.data.take 7 = "Bearer ".data) : bearerNormalize token = token := by
  unfold bearerNormalize
  rw [if_neg]
  rintro ⟨-, -, h3⟩
  exact h3 h

theorem bearerNormalize_short (token : String) (h : token.data.length ≤ 7) :
    bearerNormalize token = token := by
  unfold bearerNormalize
  rw [if_neg]
  rintro ⟨-, h2, -⟩
  omega

theorem bearerNormalize_ne_empty (token : String) (hne : token ≠ "") :
    bearerNormalize token ≠ "" := by
  unfold bearerNormalize
  split
  · intro h
    have hd := congrArg String.data h
    simp [String.data_append] at hd
  · exact hne

theorem authHeaderFor_bearer (c : ApiCall) (token : String)
    (hb : usesBearerNorm c = true) (hne : token ≠ "") :
    authHeaderFor c token = some (bearerNormalize token) := by
  cases c <;> first
    | exact absurd hb (by decide)
    | rfl
    | (show (if bearerNormalize token = "" then none else some (bearerNormalize token))
          = some (bearerNormalize token)
       rw [if_neg (bearerNormalize_ne_empty token hne)])

/-! Helper lemmas about the retry executor and the convergence poller. -/

theorem retryAux_step_retryable (cfg : RetryConfig) (attempts : Nat → AttemptResult)
    (f a d : Nat) (le : Option String)
    (hra : retryableOutcome (attempts a) = true) (hlt : a < cfg.MaxRetries) :
    retryAux cfg attempts noCancelF (f + 1) a d le
      = ((retryAux cfg attempts noCancelF f (a + 1)
            (if a = 0 then d else nextDelay cfg d) (lastErrOf (attempts a))).1,
          (if a = 0 then [] else [HttpEvent.sleep a d]) ++ HttpEvent.request a ::
            (drainOf attempts a ++ (retryAux cfg attempts noCancelF f (a + 1)
              (if a = 0 then d else nextDelay cfg d) (lastErrOf (attempts a))).2)) := by
  cases hr : attempts a with
  | transportErr msg =>
    rw [hr] at hra
    simp only [retryableOutcome] at hra
    simp [retryAux, hr, hra, hlt, noCancelF, retryBackoffWait, drainOf, lastErrOf]
  | response s =>
    rw [hr] at hra
    simp only [retryableOutcome] at hra
    simp [retryAux, hr, hra, hlt, noCancelF, retryBackoffWait, drainOf, lastErrOf]

theorem retryAux_step_final (cfg : RetryConfig) (attempts : Nat → AttemptResult)
    (f a d : Nat) (le : Option String) (hge : ¬ a < cfg.MaxRetries) :
    retryAux cfg attempts noCancelF (f + 1) a d le
      = (finalRetryOutcome (attempts a),
         (if a = 0 then [] else [HttpEvent.sleep a d]) ++ [HttpEvent.request a]) := by
  cases hr : attempts a with
  | transportErr msg =>
    simp [retryAux, hr, hge, noCancelF, retryBackoffWait, finalRetryOutcome]
  | response s =>
    simp [retryAux, hr, hge, noCancelF, retryBackoffWait, finalRetryOutcome]

theorem waitCompleted (a : Nat) :
    (if a = 0 then WaitResult.completed else retryBackoffWait (noCancelF a))
      = WaitResult.completed := by
  simp [noCancelF, retryBackoffWait]

theorem retryAux_request_mem (cfg : RetryConfig) (attempts : Nat → AttemptResult) :
    ∀ f a d le, 1 ≤ f →
      HttpEvent.request a ∈ (retryAux cfg attempts noCancelF f a d le).2 := by
  intro f a d le h1
  obtain ⟨f', rfl⟩ : ∃ f', f = f' + 1 := ⟨f - 1, by omega⟩
  cases hr : attempts a <;>
    (simp only [retryAux, waitCompleted, hr]; split <;> simp)

theorem retryAux_count (cfg : RetryConfig) (attempts : Nat → AttemptResult)
    (hret : ∀ j, j ≤ cfg.MaxRetries → retryableOutcome (attempts j) = true) :
    ∀ f a d le, a + f = cfg.MaxRetries + 1 →
      countRequests (retryAux cfg attempts noCancelF f a d le).2 ≤ f := by
  intro f
  induction f with
  | zero => intro a d le him; simp [retryAux, countRequests]
  | succ f ih =>
    intro a d le him
    by_cases hlt : a < cfg.MaxRetries
    · rw [retryAux_step_retryable cfg attempts f a d le (hret a (by omega)) hlt]
      have hc := ih (a + 1) (if a = 0 then d else nextDelay cfg d)
        (lastErrOf (attempts a)) (by omega)
      have h0 : List.countP isReqEvent (if a = 0 then [] else [HttpEvent.sleep a d]) = 0 := by
        split <;> rfl
      have h2 : List.countP isReqEvent (drainOf attempts a) = 0 := by
        unfold drainOf; split <;> rfl
      simp only [countRequests, List.countP_append, List.countP_cons, h0, h2] at *
      simp [isReqEvent]
      omega
    · rw [retryAux_step_final cfg attempts f a d le hlt]
      have h0 : List.countP isReqEvent (if a = 0 then [] else [HttpEvent.sleep a d]) = 0 := by
        split <;> rfl
      have h1 : List.countP isReqEvent [HttpEvent.request a] = 1 := rfl
      simp only [countRequests, List.countP_append, h0, h1]
      omega

theorem retryAux_final (cfg : RetryConfig) (attempts : Nat → AttemptResult)
    (hret : ∀ j, j ≤ cfg.MaxRetries → retryableOutcome (attempts j) = true) :
    ∀ f a d le, a + f = cfg.MaxRetries + 1 → a ≤ cfg.MaxRetries →
      (retryAux cfg attempts noCancelF f a d le).1
        = finalRetryOutcome (attempts cfg.MaxRetries) := by
  intro f
  induction f with
  | zero => intro a d le him ham; omega
  | succ f ih =>
    intro a d le him ham
    by_cases hlt : a < cfg.MaxRetries
    · rw [retryAux_step_retryable cfg attempts f a d le (hret a (by omega)) hlt]
      exact ih (a + 1) _ _ (by omega) (by omega)
    · have ha : a = cfg.MaxRetries := by omega
      rw [retryAux_step_final cfg attempts f a d le hlt, ha]

theorem retryAux_drain (cfg : RetryConfig) (attempts : Nat → AttemptResult)
    (hret : ∀ j, j ≤ cfg.MaxRetries → retryableOutcome (attempts j) = true) :
    ∀ f a d le i s, a + f = cfg.MaxRetries + 1 → a ≤ i → i < cfg.MaxRetries →
      attempts i = .response s →
      ∃ l1 l2, (retryAux cfg attempts noCancelF f a d le).2
          = l1 ++ HttpEvent.request i :: HttpEvent.drainClose i :: l2
        ∧ HttpEvent.request (i + 1) ∉ l1 ∧ HttpEvent.request (i + 1) ∈ l2 := by
  intro f
  induction f with
  | zero => intro a d le i s him hai hilt hres; omega
  | succ f ih =>
    intro a d le i s him hai hilt hres
    rcases Nat.eq_or_lt_of_le hai with heq | hlt
    · subst heq
      rw [retryAux_step_retryable cfg attempts f a d le (hret a (by omega)) hilt]
      refine ⟨(if a = 0 then [] else [HttpEvent.sleep a d]),
        (retryAux cfg attempts noCancelF f (a + 1)
          (if a = 0 then d else nextDelay cfg d) (lastErrOf (attempts a))).2,
        ?_, ?_, ?_⟩
      · simp [drainOf, hres]
      · split <;> simp
      · exact retryAux_request_mem cfg attempts f (a + 1) _ _ (by omega)
    · rw [retryAux_step_retryable cfg attempts f a d le (hret a (by omega)) (by omega)]
      obtain ⟨l1, l2, htr, hn1, hn2⟩ :=
        ih (a + 1) (if a = 0 then d else nextDelay cfg d) (lastErrOf (attempts a))
          i s (by omega) (by omega) hilt hres
      refine ⟨(if a = 0 then [] else [HttpEvent.sleep a d]) ++
          HttpEvent.request a :: drainOf attempts a ++ l1, l2, ?_, ?_, hn2⟩
      · rw [htr]
        simp
      · intro hmem
        simp only [List.mem_append, List.mem_cons] at hmem
        rcases hmem with (h | h | h) | h
        · revert h; split <;> simp
        · cases h; omega
        · revert h; unfold drainOf; split <;> simp
        · exact hn1 h

theorem backoffDelay_succ (cfg : RetryConfig) (a : Nat) (h : 1 ≤ a) :
    backoffDelay cfg a = nextDelay cfg (backoffDelay cfg (a - 1)) := by
  obtain ⟨a', rfl⟩ : ∃ a', a = a' + 1 := ⟨a - 1, by omega⟩
  simp [backoffDelay]

theorem retryAux_sleepEvents (cfg : RetryConfig) (attempts : Nat → AttemptResult)
    (hret : ∀ j, j ≤ cfg.MaxRetries → retryableOutcome (attempts j) = true) :
    ∀ f a le, 1 ≤ a → a + f = cfg.MaxRetries + 1 →
      sleepEvents (retryAux cfg attempts noCancelF f a (backoffDelay cfg (a - 1)) le).2
        = (List.range' a f).map fun j => (j, backoffDelay cfg (j - 1)) := by
  intro f
  induction f with
  | zero => intro a le ha him; simp [retryAux, sleepEvents, List.range']
  | succ f ih =>
    intro a le ha him
    have hne : ¬ a = 0 := by omega
    by_cases hlt : a < cfg.MaxRetries
    · rw [retryAux_step_retryable cfg attempts f a _ le (hret a (by omega)) hlt]
      have hd : (if a = 0 then backoffDelay cfg (a - 1)
          else nextDelay cfg (backoffDelay cfg (a - 1))) = backoffDelay cfg ((a + 1) - 1) := by
        rw [if_neg hne, ← backoffDelay_succ cfg a ha]
        simp
      simp only [sleepEvents, List.filterMap_append, List.filterMap_cons] at *
      rw [show (List.filterMap
            (fun e => match e with | HttpEvent.sleep a d => some (a, d) | _ => none)
            (if a = 0 then ([] : List HttpEvent) else [HttpEvent.sleep a (backoffDelay cfg (a - 1))]))
          = [(a, backoffDelay cfg (a - 1))] from by rw [if_neg hne]; rfl]
      rw [show (List.filterMap
            (fun e => match e with | HttpEvent.sleep a d => some (a, d) | _ => none)
            (drainOf attempts a)) = [] from by unfold drainOf; split <;> rfl]
      rw [hd]
      rw [ih (a + 1) (lastErrOf (attempts a)) (by omega) (by omega)]
      simp [List.range']
    · have ha' : a = cfg.MaxRetries := by omega
      have hf : f = 0 := by omega
      subst hf
      rw [retryAux_step_final cfg attempts 0 a _ le hlt]
      simp only [sleepEvents, List.filterMap_append]
      rw [show (List.filterMap
            (fun e => match e with | HttpEvent.sleep a d => some (a, d) | _ => none)
            (if a = 0 then ([] : List HttpEvent) else [HttpEvent.sleep a (backoffDelay cfg (a - 1))]))
          = [(a, backoffDelay cfg (a - 1))] from by rw [if_neg hne]; rfl]
      simp [List.range']

theorem doRequest_sleepEvents (cfg : RetryConfig) (attempts : Nat → AttemptResult)
    (hret : ∀ j, j ≤ cfg.MaxRetries → retryableOutcome (attempts j) = true) :
    sleepEvents (doRequestWithRetry cfg attempts noCancelF).2
      = (List.range cfg.MaxRetries).map fun j => (j + 1, backoffDelay cfg j) := by
  unfold doRequestWithRetry
  rcases Nat.eq_zero_or_pos cfg.MaxRetries with h0 | hpos
  · rw [h0]
    rw [retryAux_step_final cfg attempts 0 0 cfg.InitialDelay none (by omega)]
    rfl
  · rw [retryAux_step_retryable cfg attempts cfg.MaxRetries 0 cfg.InitialDelay none
      (hret 0 (by omega)) hpos]
    rw [show (if (0 : Nat) = 0 then cfg.InitialDelay else nextDelay cfg cfg.InitialDelay)
        = backoffDelay cfg (1 - 1) from by simp [backoffDelay]]
    rw [show (0 : Nat) + 1 = 1 from rfl]
    have h1 := retryAux_sleepEvents cfg attempts hret cfg.MaxRetries 1
      (lastErrOf (attempts 0)) (by omega) (by omega)
    rw [show ((if (0 : Nat) = 0 then ([] : List HttpEvent)
        else [HttpEvent.sleep 0 cfg.InitialDelay])) = [] from by simp]
    simp only [sleepEvents, List.filterMap_append, List.filterMap_cons] at h1 ⊢
    rw [show (List.filterMap
          (fun e => match e with | HttpEvent.sleep a d => some (a, d) | _ => none)
          (drainOf attempts 0)) = [] from by unfold drainOf; split <;> rfl]
    rw [h1]
    simp only [List.range'_eq_map_range, List.map_map]
    apply List.map_congr_left
    intro j hj
    simp only [Function.comp_apply]
    rw [Nat.add_comm 1 j, Nat.add_sub_cancel]

theorem backoffDelay_closedForm (cfg : RetryConfig)
    (h1 : cfg.InitialDelay ≤ cfg.MaxDelay) (h2 : 1 ≤ cfg.BackoffMultiplier) :
    ∀ n, backoffDelay cfg n
      = min (cfg.InitialDelay * cfg.BackoffMultiplier ^ n) cfg.MaxDelay := by
  intro n
  induction n with
  | zero =>
    simp only [backoffDelay, pow_zero, Nat.mul_one]
    exact (Nat.min_eq_left h1).symm
  | succ n ih =>
    simp only [backoffDelay, nextDelay, ih]
    rcases Nat.le_total (cfg.InitialDelay * cfg.BackoffMultiplier ^ n) cfg.MaxDelay with hle | hge
    · rw [Nat.min_eq_left hle, pow_succ, ← Nat.mul_assoc]
    · rw [Nat.min_eq_right hge]
      have h3 : cfg.MaxDelay ≤ cfg.MaxDelay * cfg.BackoffMultiplier :=
        Nat.le_mul_of_pos_right _ h2
      rw [Nat.min_eq_right h3]
      have h4 : cfg.MaxDelay ≤ cfg.InitialDelay * cfg.BackoffMultiplier ^ (n + 1) := by
        calc cfg.MaxDelay ≤ cfg.InitialDelay * cfg.BackoffMultiplier ^ n := hge
          _ ≤ cfg.InitialDelay * cfg.BackoffMultiplier ^ n * cfg.BackoffMultiplier :=
              Nat.le_mul_of_pos_right _ h2
          _ = cfg.InitialDelay * cfg.BackoffMultiplier ^ (n + 1) := by
              rw [pow_succ, Nat.mul_assoc]
      rw [Nat.min_eq_right h4]

theorem backoffDelay_capped (n : Nat) (hn : 5 ≤ n) :
    backoffDelay DefaultRetryConfig n = 30 * second := by
  rw [backoffDelay_closedForm DefaultRetryConfig (by decide) (by decide) n]
  apply Nat.min_eq_right
  have h32 : 32 ≤ 2 ^ n := by
    calc (32 : Nat) = 2 ^ 5 := rfl
      _ ≤ 2 ^ n := Nat.pow_le_pow_right (by omega) hn
  show 30 * second ≤ second * 2 ^ n
  calc 30 * second ≤ second * 32 := by decide
    _ ≤ second * 2 ^ n := Nat.mul_le_mul_left _ h32

-- poll lemmas
theorem pollAux_step_nonhealthy (fetch : Nat → FetchResult ClusterInfo)
    (m i f : Nat) (last : String) (h : isHealthy (fetch i) = false) :
    pollAux fetch noCancelF m i (f + 1) last
      = pollSleepThen noCancelF m i
          (fun _ => pollAux fetch noCancelF m (i + 1) f (lastStatusAux fetch i 1 last)) := by
  cases hf : fetch i with
  | found info =>
    rw [hf] at h
    simp only [isHealthy, decide_eq_false_iff_not] at h
    simp [pollAux, hf, h, lastStatusAux]
  | notFound => simp [pollAux, hf, lastStatusAux]
  | fetchErr msg => simp [pollAux, hf, lastStatusAux]

theorem lastStatusAux_split (fetch : Nat → FetchResult ClusterInfo)
    (i f : Nat) (last : String) :
    lastStatusAux fetch i (f + 1) last
      = lastStatusAux fetch (i + 1) f (lastStatusAux fetch i 1 last) := by
  cases hf : fetch i <;> simp [lastStatusAux, hf]

theorem pollAux_timeout (fetch : Nat → FetchResult ClusterInfo) (m : Nat) :
    ∀ f i last, i + f = m →
      (∀ t, i ≤ t → t < m → isHealthy (fetch t) = false) →
      pollAux fetch noCancelF m i f last
        = ⟨f, f - 1, .timedOut (lastStatusAux fetch i f last)⟩ := by
  intro f
  induction f with
  | zero => intro i last him hna; simp [pollAux, lastStatusAux]
  | succ f ih =>
    intro i last him hna
    rw [pollAux_step_nonhealthy fetch m i f last (hna i (by omega) (by omega))]
    rw [lastStatusAux_split fetch i f last]
    rw [ih (i + 1) (lastStatusAux fetch i 1 last) (by omega)
      (fun t ht1 ht2 => hna t (by omega) ht2)]
    by_cases hlt : i < m - 1
    · have hf1 : 1 ≤ f := by omega
      simp only [pollSleepThen, if_pos hlt, noCancelF, pollIntervalWait]
      simp only [Bool.false_eq_true, if_false]
      simp only [PollTrace.mk.injEq, and_true, true_and]
      omega
    · have hf0 : f = 0 := by omega
      subst hf0
      simp [pollSleepThen, if_neg hlt]

theorem pollAux_converge (fetch : Nat → FetchResult ClusterInfo) (m : Nat) :
    ∀ f i last j, i + f = m → i ≤ j → j < m → isHealthy (fetch j) = true →
      (∀ t, i ≤ t → t < j → isHealthy (fetch t) = false) →
      ∃ info, fetch j = .found info ∧
        pollAux fetch noCancelF m i f last = ⟨j - i + 1, j - i, .converged info⟩ := by
  intro f
  induction f with
  | zero => intro i last j him hij hjm hh hna; omega
  | succ f ih =>
    intro i last j him hij hjm hh hna
    rcases Nat.eq_or_lt_of_le hij with heq | hlt
    · subst heq
      cases hf : fetch i with
      | found info =>
        rw [hf] at hh
        simp only [isHealthy, decide_eq_true_eq] at hh
        refine ⟨info, rfl, ?_⟩
        simp [pollAux, hf, hh]
      | notFound => rw [hf] at hh; simp [isHealthy] at hh
      | fetchErr msg => rw [hf] at hh; simp [isHealthy] at hh
    · rw [pollAux_step_nonhealthy fetch m i f last (hna i (by omega) hlt)]
      obtain ⟨info, hfj, hrec⟩ := ih (i + 1) (lastStatusAux fetch i 1 last) j
        (by omega) (by omega) hjm hh (fun t ht1 ht2 => hna t (by omega) ht2)
      refine ⟨info, hfj, ?_⟩
      have hlt2 : i < m - 1 := by omega
      simp only [pollSleepThen, if_pos hlt2, noCancelF, pollIntervalWait]
      simp only [Bool.false_eq_true, if_false]
      rw [hrec]
      simp only [PollTrace.mk.injEq, and_true, true_and]
      omega

/-! The frozen claims. -/

/-- C1: the claim states that whenever a cluster or secret delete fails
inconclusively and the follow-up verification read itself fails, the original
delete failure is surfaced and the local handle is kept.  The code violates
this in the retry-executor-failure branch: a failed verification read returns
`nil` for the snapshot, which the branch reads as absence
(resource_cluster.go:344-349, and the same shape in resourceSecretDelete), so
the handler clears the ID and reports success.  This theorem evaluates both
delete models at such a failing input: the delete call fails with a retryable
transport error, the verification read fails too, and the outcome is
success-with-cleared-handle instead of the surfaced original failure. -/
theorem c1_failedVerifyReadClearsHandle :
    resourceClusterDelete "demo" "ns-1" FetchResult.notFound
        (CallResult.execErr "connection reset by peer")
        (FetchResult.fetchErr "request timeout") false
      = ⟨OpResult.ok, true, true, "ns-1"⟩
  ∧ resourceSecretDelete "sid-9" "db-creds" FetchResult.notFound
        (CallResult.execErr "connection reset by peer")
        (FetchResult.fetchErr "request timeout")
      = ⟨OpResult.ok, true, true, "sid-9"⟩ := by decide

/-- C2 counterexample: the claim says every non-empty token not already
starting with "Bearer " is sent as "Bearer " followed by the token on the
Bearer-normalized calls.  The token "abc" is non-empty, does not start with
"Bearer ", yet the cluster read sends it raw, because the source only
prefixes tokens longer than 7 bytes. -/
theorem c2_counterexample :
    "abc" ≠ "" ∧ "abc".data.take 7 ≠ "Bearer ".data
  ∧ usesBearerNorm ApiCall.clusterInfoGet = true
  ∧ authHeaderFor ApiCall.clusterInfoGet "abc" ≠ some ("Bearer " ++ "abc") := by decide

/-- C2 (amended): on every call other than cluster create, cluster delete and
the kubeconfig fetch, a non-empty stored token longer than 7 bytes that does
not already start with "Bearer " is sent as "Bearer " followed by the token;
a token already starting with "Bearer " is sent unchanged; a non-empty token
of length at most 7 is also sent unchanged (raw); and cluster create, cluster
delete and the kubeconfig fetch send the raw token without prefix injection. -/
theorem c2_authHeaderNormalization (c : ApiCall) (token : String)
    (hb : usesBearerNorm c = true) (hne : token ≠ "") :
    (7 < token.data.length → token.data.take 7 ≠ "Bearer ".data →
      authHeaderFor c token = some ("Bearer " ++ token))
  ∧ (token.data.take 7 = "Bearer ".data → authHeaderFor c token = some token)
  ∧ (token.data.length ≤ 7 → authHeaderFor c token = some token)
  ∧ authHeaderFor ApiCall.clusterCreate token = some token
  ∧ authHeaderFor ApiCall.clusterDelete token = some token
  ∧ authHeaderFor ApiCall.kubeconfigFetch token = some token := by
  refine ⟨?_, ?_, ?_, rfl, ?_, ?_⟩
  · intro h1 h2
    rw [authHeaderFor_bearer c token hb hne, bearerNormalize_long token hne h1 h2]
  · intro h
    rw [authHeaderFor_bearer c token hb hne, bearerNormalize_marked token h]
  · intro h
    rw [authHeaderFor_bearer c token hb hne, bearerNormalize_short token h]
  · show (if token = "" then none else some token) = some token
    rw [if_neg hne]
  · show (if token = "" then none else some token) = some token
    rw [if_neg hne]

/-- C2 witness: concrete instances of the amended header claim. -/
theorem c2_authHeaderNormalization_witness :
    authHeaderFor ApiCall.helmInstall "tokn1234" = some ("Bearer " ++ "tokn1234")
  ∧ authHeaderFor ApiCall.secretList "Bearer xyz" = some "Bearer xyz"
  ∧ authHeaderFor ApiCall.clusterCreate "tokn1234" = some "tokn1234" :=
  ⟨(c2_authHeaderNormalization ApiCall.helmInstall "tokn1234" (by decide) (by decide)).1
      (by decide) (by decide),
   (c2_authHeaderNormalization ApiCall.secretList "Bearer xyz" (by decide) (by decide)).2.1
      (by decide),
   (c2_authHeaderNormalization ApiCall.helmInstall "tokn1234" (by decide)
      (by decide)).2.2.2.1⟩

/-- C3 counterexample: the claim says that after exhausting all attempts the
executor returns an error wrapping the last failure rather than a response.
With one retry and every attempt answering HTTP 500, the final retryable
response is returned to the caller as a response (`return resp, nil`,
http_client.go:145), not as an error. -/
theorem c3_counterexample :
    (doRequestWithRetry c3cfg c3attempts noCancelF).1 = RetryOutcome.response 500
  ∧ isErrorOutcome (doRequestWithRetry c3cfg c3attempts noCancelF).1 = false := by decide

/-- C3 (amended): for every request whose attempts all yield retryable
outcomes, the retry executor issues at most `MaxRetries + 1` HTTP requests in
total, fully drains and closes the response body of every discarded retryable
response before the next attempt executes, and after exhausting all attempts
it returns the last transport error itself when the final attempt was a
retryable transport error, and returns the final retryable response to the
caller (rather than an error) when the final attempt was a retryable HTTP
status. -/
theorem c3_retryExhaustion (cfg : RetryConfig) (attempts : Nat → AttemptResult)
    (hret : ∀ j, j ≤ cfg.MaxRetries → retryableOutcome (attempts j) = true) :
    countRequests (doRequestWithRetry cfg attempts noCancelF).2 ≤ cfg.MaxRetries + 1
  ∧ (∀ i s, i < cfg.MaxRetries → attempts i = AttemptResult.response s →
      ∃ l1 l2, (doRequestWithRetry cfg attempts noCancelF).2
          = l1 ++ HttpEvent.request i :: HttpEvent.drainClose i :: l2
        ∧ HttpEvent.request (i + 1) ∉ l1 ∧ HttpEvent.request (i + 1) ∈ l2)
  ∧ (doRequestWithRetry cfg attempts noCancelF).1
      = finalRetryOutcome (attempts cfg.MaxRetries) := by
  refine ⟨?_, ?_, ?_⟩
  · exact retryAux_count cfg attempts hret (cfg.MaxRetries + 1) 0
      cfg.InitialDelay none (by omega)
  · intro i s hi hres
    exact retryAux_drain cfg attempts hret (cfg.MaxRetries + 1) 0
      cfg.InitialDelay none i s (by omega) (by omega) hi hres
  · exact retryAux_final cfg attempts hret (cfg.MaxRetries + 1) 0
      cfg.InitialDelay none (by omega) (by omega)

/-- C3 witness: the amended exhaustion claim at a concrete all-retryable
run. -/
theorem c3_retryExhaustion_witness :
    countRequests (doRequestWithRetry c3cfg c3attempts noCancelF).2 ≤ c3cfg.MaxRetries + 1
  ∧ (doRequestWithRetry c3cfg c3attempts noCancelF).1
      = finalRetryOutcome (c3attempts c3cfg.MaxRetries) :=
  ⟨(c3_retryExhaustion c3cfg c3attempts (by decide)).1,
   (c3_retryExhaustion c3cfg c3attempts (by decide)).2.2⟩

/-- C4: the backoff delay slept before the n-th retry (`backoffDelay cfg
(n - 1)`, n = 1, 2, ...) equals `min(initial * multiplier ^ (n - 1), max)`;
in particular for the policy {initial = 1s, multiplier = 2, max = 30s} the
successive sleeps are exactly 1s, 2s, 4s, 8s, 16s, 30s, 30s, ... (capped at
the max thereafter); and in every all-retryable run the executor sleeps
exactly those delays, in order, before retries 1 through MaxRetries. -/
theorem c4_backoffDelaySequence (cfg : RetryConfig)
    (h1 : cfg.InitialDelay ≤ cfg.MaxDelay) (h2 : 1 ≤ cfg.BackoffMultiplier) :
    (∀ n, backoffDelay cfg n
        = min (cfg.InitialDelay * cfg.BackoffMultiplier ^ n) cfg.MaxDelay)
  ∧ (List.range 7).map (backoffDelay DefaultRetryConfig)
      = [second, 2 * second, 4 * second, 8 * second, 16 * second,
         30 * second, 30 * second]
  ∧ (∀ n, 5 ≤ n → backoffDelay DefaultRetryConfig n = 30 * second)
  ∧ (∀ attempts : Nat → AttemptResult,
      (∀ j, j ≤ cfg.MaxRetries → retryableOutcome (attempts j) = true) →
      sleepEvents (doRequestWithRetry cfg attempts noCancelF).2
        = (List.range cfg.MaxRetries).map fun j => (j + 1, backoffDelay cfg j)) :=
  ⟨backoffDelay_closedForm cfg h1 h2, by decide,
   fun n hn => backoffDelay_capped n hn,
   fun attempts hret => doRequest_sleepEvents cfg attempts hret⟩

/-- C4 witness: the closed form and the concrete capped sequence at the
default policy. -/
theorem c4_backoffDelaySequence_witness :
    backoffDelay DefaultRetryConfig 6
      = min (DefaultRetryConfig.InitialDelay * DefaultRetryConfig.BackoffMultiplier ^ 6)
          DefaultRetryConfig.MaxDelay
  ∧ (List.range 7).map (backoffDelay DefaultRetryConfig)
      = [second, 2 * second, 4 * second, 8 * second, 16 * second,
         30 * second, 30 * second] :=
  ⟨(c4_backoffDelaySequence DefaultRetryConfig (by decide) (by decide)).1 6,
   (c4_backoffDelaySequence DefaultRetryConfig (by decide) (by decide)).2.1⟩

/-- C5: if the convergence poll observes the terminal-success marker
("Healthy") first on attempt k, the loop issues exactly k reads (no attempt
k+1) and k-1 interval sleeps and transitions to Converged; if all 60 attempts
pass without the marker, the create fails with a timeout outcome reporting the
last observed status verbatim. -/
theorem c5_convergencePoll (fetch : Nat → FetchResult ClusterInfo) (k : Nat) :
    (1 ≤ k → k ≤ 60 → isHealthy (fetch (k - 1)) = true →
      (∀ t, t < k - 1 → isHealthy (fetch t) = false) →
      (clusterCreatePoll fetch noCancelF).reads = k
      ∧ (clusterCreatePoll fetch noCancelF).sleeps = k - 1
      ∧ (clusterCreatePoll fetch noCancelF).outcome.isConverged = true)
  ∧ ((∀ t, t < 60 → isHealthy (fetch t) = false) →
      clusterCreatePoll fetch noCancelF
        = ⟨60, 59, .timedOut (lastObservedStatus fetch 60)⟩) := by
  constructor
  · intro h1 h2 hh hna
    obtain ⟨info, hfj, heq⟩ := pollAux_converge fetch 60 60 0 "" (k - 1)
      (by omega) (by omega) (by omega) hh (fun t ht1 ht2 => hna t ht2)
    unfold clusterCreatePoll
    rw [heq]
    refine ⟨?_, ?_, rfl⟩
    · show k - 1 - 0 + 1 = k
      omega
    · show k - 1 - 0 = k - 1
      omega
  · intro hna
    unfold clusterCreatePoll
    rw [pollAux_timeout fetch 60 60 0 "" (by omega) (fun t ht1 ht2 => hna t ht2)]
    rfl

/-- C5 witness: a run converging on attempt 3, and a run that times out with
the last observed status. -/
theorem c5_convergencePoll_witness :
    ((clusterCreatePoll c5fetchA noCancelF).reads = 3
      ∧ (clusterCreatePoll c5fetchA noCancelF).sleeps = 2
      ∧ (clusterCreatePoll c5fetchA noCancelF).outcome.isConverged = true)
  ∧ clusterCreatePoll c5fetchB noCancelF
      = ⟨60, 59, .timedOut (lastObservedStatus c5fetchB 60)⟩ :=
  ⟨(c5_convergencePoll c5fetchA 3).1 (by decide) (by decide) (by decide) (by decide),
   (c5_convergencePoll c5fetchB 1).2 (by decide)⟩

/-- C6 counterexample: the claim says decoding is the exact inverse of
encoding for every tuple whose fields do not contain the separator.  The
tuple ("", "ns1", "mysql") contains no separator in any field, yet its
encoding ":ns1:mysql" decodes to only two parts, because the splitter drops
empty segments. -/
theorem c6_counterexample :
    splitResourceID (encodeHelmID "" "ns1" "mysql") = ["ns1", "mysql"]
  ∧ splitResourceID (encodeHelmID "" "ns1" "mysql") ≠ ["", "ns1", "mysql"] := by decide

/-- C6 (amended): decoding is the exact inverse of encoding for every tuple
(cluster, namespace, release) whose fields are non-empty and do not contain
the separator character; and any identifier that decodes to fewer than 3
parts makes the delete treat it as malformed — the state is cleared and no
delete call is issued, never a partial match. -/
theorem c6_compositeIdRoundTrip (c ns r : String)
    (hc : c ≠ "") (hns : ns ≠ "") (hr : r ≠ "")
    (hcc : ∀ ch ∈ c.data, ch ≠ ':') (hnsc : ∀ ch ∈ ns.data, ch ≠ ':')
    (hrc : ∀ ch ∈ r.data, ch ≠ ':') :
    splitResourceID (encodeHelmID c ns r) = [c, ns, r]
  ∧ ∀ (id : String) (lookup : FetchResult ClusterInfo) (del : CallResult),
      (splitResourceID id).length < 3 →
      resourceHelmReleaseDelete id lookup del = ⟨none, .ok, true⟩ := by
  constructor
  · have hdata : (encodeHelmID c ns r).data
        = c.data ++ (':' :: (ns.data ++ (':' :: r.data))) := by
      show (c ++ ":" ++ ns ++ ":" ++ r).data = _
      simp [String.data_append]
    have key : splitAux ((encodeHelmID c ns r).data) [] = [c.data, ns.data, r.data] := by
      rw [hdata, splitAux_nocolon c.data hcc, List.append_nil,
          splitAux_colon_flush _ _ (by simp [data_ne_nil hc]), List.reverse_reverse,
          splitAux_nocolon ns.data hnsc, List.append_nil,
          splitAux_colon_flush _ _ (by simp [data_ne_nil hns]), List.reverse_reverse,
          splitAux_last r.data hrc (data_ne_nil hr)]
    unfold splitResourceID
    rw [key]
    simp
  · intro id lookup del h
    unfold resourceHelmReleaseDelete
    rcases hsp : splitResourceID id with _ | ⟨a, _ | ⟨b, _ | ⟨cc, tl⟩⟩⟩
    · rfl
    · rfl
    · rfl
    · rw [hsp] at h
      simp at h
      omega

/-- C6 witness: the round trip at a concrete separator-free tuple. -/
theorem c6_compositeIdRoundTrip_witness :
    splitResourceID (encodeHelmID "prod" "ns1" "mysql") = ["prod", "ns1", "mysql"] :=
  (c6_compositeIdRoundTrip "prod" "ns1" "mysql" (by decide) (by decide) (by decide)
    (by decide) (by decide) (by decide)).1

/-- C7 counterexample: the claim says every suspension point, including the
grace interval before an ambiguous-delete verification read, is interruptible
by cancellation.  The grace interval is an unconditional `time.Sleep`: with
cancellation fired during the wait it still completes, the verification
proceeds, and the delete returns its ordinary outcome (here the original
transport error, the cluster still being present) instead of a
cancellation-kind error. -/
theorem c7_counterexample :
    deleteGraceWait true = WaitResult.completed
  ∧ deleteGraceWait true ≠ WaitResult.interrupted
  ∧ (resourceClusterDelete "demo" "ns-1" FetchResult.notFound
        (CallResult.execErr "connection reset by peer")
        (FetchResult.found healthyDemo) true).result
      = OpResult.err "connection reset by peer" := by decide

/-- C7 (amended): the backoff delay in the retry executor and the interval
sleep in the convergence poll are interruptible — when cancellation fires
during the wait, the operation returns promptly with a cancellation-kind
outcome; the grace interval before an ambiguous-delete verification read is
an unconditional 2-second sleep that is not interruptible: cancellation
during it never changes the delete outcome. -/
theorem c7_suspensionPoints (cfg : RetryConfig) (attempts : Nat → AttemptResult)
    (fetch : Nat → FetchResult ClusterInfo) (name stateNs : String)
    (lk vr : FetchResult ClusterInfo) (del : CallResult)
    (h1 : 1 ≤ cfg.MaxRetries) (h2 : retryableOutcome (attempts 0) = true)
    (h3 : isHealthy (fetch 0) = false) :
    (doRequestWithRetry cfg attempts (fun i => i == 1)).1 = RetryOutcome.cancelled
  ∧ clusterCreatePoll fetch (fun i => i == 0) = ⟨1, 0, PollOutcome.cancelled⟩
  ∧ resourceClusterDelete name stateNs lk del vr true
      = resourceClusterDelete name stateNs lk del vr false
  ∧ deleteGraceWait true = WaitResult.completed := by
  refine ⟨?_, ?_, rfl, rfl⟩
  · obtain ⟨mr, hmr⟩ : ∃ mr, cfg.MaxRetries = mr + 1 := ⟨cfg.MaxRetries - 1, by omega⟩
    unfold doRequestWithRetry
    rw [hmr]
    cases ha : attempts 0 with
    | transportErr msg =>
      rw [ha] at h2
      simp only [retryableOutcome] at h2
      simp [retryAux, ha, h2, retryBackoffWait, hmr]
    | response s =>
      rw [ha] at h2
      simp only [retryableOutcome] at h2
      simp [retryAux, ha, h2, retryBackoffWait, hmr]
  · unfold clusterCreatePoll
    rw [show (60 : Nat) = 59 + 1 from rfl]
    cases hf : fetch 0 with
    | found info =>
      rw [hf] at h3
      simp only [isHealthy, decide_eq_false_iff_not] at h3
      simp [pollAux, hf, h3, pollSleepThen, pollIntervalWait]
    | notFound =>
      simp [pollAux, hf, pollSleepThen, pollIntervalWait]
    | fetchErr m =>
      simp [pollAux, hf, pollSleepThen, pollIntervalWait]

/-- C7 witness: cancellation during the first backoff wait and during the
first poll-interval wait, at concrete environments. -/
theorem c7_suspensionPoints_witness :
    (doRequestWithRetry DefaultRetryConfig c7attempts (fun i => i == 1)).1
      = RetryOutcome.cancelled
  ∧ clusterCreatePoll c7fetch (fun i => i == 0) = ⟨1, 0, PollOutcome.cancelled⟩ :=
  ⟨(c7_suspensionPoints DefaultRetryConfig c7attempts c7fetch "x" "" FetchResult.notFound
      FetchResult.notFound (CallResult.resp 200 "") (by decide) (by decide) (by decide)).1,
   (c7_suspensionPoints DefaultRetryConfig c7attempts c7fetch "x" "" FetchResult.notFound
      FetchResult.notFound (CallResult.resp 200 "") (by decide) (by decide) (by decide)).2.1⟩

/-- C8: a helm-release update that changes any immutable field (cluster_name,
namespace, release, chart, repo, chart_version) fails with a configuration
error and issues no network call — never silently applied; only changes
restricted to the mutable values fields proceed, by re-invoking create. -/
theorem c8_immutableUpdateRejected (c : HelmChanges) :
    (helmImmutableChanged c = true →
      resourceHelmReleaseUpdate c = .rejectImmutable
        "cannot change cluster_name, namespace, release, chart, repo, or chart_version. These require recreation"
      ∧ helmUpdateNetworkCalls (resourceHelmReleaseUpdate c) = 0)
  ∧ (helmImmutableChanged c = false →
      resourceHelmReleaseUpdate c
        = if c.values || c.valuesFile then .reinstall else .readOnly) := by
  constructor
  · intro h
    simp [resourceHelmReleaseUpdate, h, helmUpdateNetworkCalls]
  · intro h
    simp [resourceHelmReleaseUpdate, h]

/-- C8 witness: a chart change is rejected without a network call; a
values-only change reinstalls. -/
theorem c8_immutableUpdateRejected_witness :
    (resourceHelmReleaseUpdate c8changesChart = .rejectImmutable
        "cannot change cluster_name, namespace, release, chart, repo, or chart_version. These require recreation"
      ∧ helmUpdateNetworkCalls (resourceHelmReleaseUpdate c8changesChart) = 0)
  ∧ resourceHelmReleaseUpdate c8changesValues
      = (if c8changesValues.values || c8changesValues.valuesFile
          then HelmUpdateStep.reinstall else HelmUpdateStep.readOnly) :=
  ⟨(c8_immutableUpdateRejected c8changesChart).1 (by decide),
   (c8_immutableUpdateRejected c8changesValues).2 (by decide)⟩

/-- C9: creating the orphan-cleanup resource with an empty explicit
apps_to_delete set and a successful cluster lookup issues no delete request
whatever keep_releases contains, sets the resource ID to
"{cluster_name}-orphan-cleanup", stores an empty deleted_apps list, and
succeeds. -/
theorem c9_emptyCleanupNoDeletes (clusterName : String) (info : ClusterInfo)
    (keep : List String) (deleteApp : String → OpResult) :
    resourceOrphanCleanupCreate clusterName (.found info) [] keep deleteApp
      = ⟨[], some (clusterName ++ "-orphan-cleanup"), some [], .ok⟩ := rfl

/-- C10: the app name of the helm-release DELETE /deleteapp call is
"{cluster namespace}-{release}" exactly when the cluster lookup succeeds with
a non-empty namespace; when the lookup fails, the cluster is absent, or its
namespace is empty, the delete is still issued with the bare release name
instead of failing. -/
theorem c10_deleteAppName (id c ns r m : String) (info : ClusterInfo)
    (del : CallResult) (h : splitResourceID id = [c, ns, r]) :
    (resourceHelmReleaseDelete id (.found info) del).appName
      = some (if info.NameSpace = "" then r else info.NameSpace ++ "-" ++ r)
  ∧ (resourceHelmReleaseDelete id (.fetchErr m) del).appName = some r
  ∧ (resourceHelmReleaseDelete id .notFound del).appName = some r := by
  unfold resourceHelmReleaseDelete
  rw [h]
  refine ⟨?_, ?_, ?_⟩ <;> cases del <;> (try rfl) <;> dsimp only <;> split_ifs <;> rfl

/-- C10 witness: the app name at a concrete identifier, with a found cluster
carrying a non-empty namespace and with a failed lookup. -/
theorem c10_deleteAppName_witness :
    (resourceHelmReleaseDelete "prod:ns1:mysql" (.found c10info)
        (CallResult.resp 200 "")).appName
      = some (if c10info.NameSpace = "" then "mysql"
          else c10info.NameSpace ++ "-" ++ "mysql")
  ∧ (resourceHelmReleaseDelete "prod:ns1:mysql" (.fetchErr "boom")
        (CallResult.resp 200 "")).appName = some "mysql" :=
  ⟨(c10_deleteAppName "prod:ns1:mysql" "prod" "ns1" "mysql" "boom" c10info
      (CallResult.resp 200 "") (by decide)).1,
   (c10_deleteAppName "prod:ns1:mysql" "prod" "ns1" "mysql" "boom" c10info
      (CallResult.resp 200 "") (by decide)).2.1⟩

end BugxProvider

